import Mathlib

/-!
# CipherVault — verification of the client-side envelope-encryption core

Shallow embedding of the CipherVault frontend services
(`src/frontend/src/services/encryption.ts`, `metadata.ts`,
`src/frontend/src/hooks/useUploadQueue.ts`, `src/frontend/src/App.tsx`).

Conventions:
* byte sequences are `List Nat` (each entry a byte value);
* JS timestamps (`Date.now()`) are `Int` milliseconds, passed explicitly;
* randomness (`crypto.getRandomValues`, random IVs, fresh DEKs) is passed
  in explicitly as entropy streams `Nat → Nat`;
* platform Web Crypto primitives (AES-GCM, PBKDF2, SHA-256, TextEncoder)
  are not part of the repository; they are modelled from the spec as ideal
  primitives (see the individual doc comments);
* the IndexedDB object store (`keyPath: 'id'`) is a `List FileMetadata`
  with put-semantics upsert by `id`.
-/

namespace CipherVault

/-- JS `String.prototype.toLowerCase()` as applied to wallet-address
identity strings (`walletAddress.toLowerCase()`), lowercasing per character. -/
def jsToLower (s : String) : String := ⟨s.data.map Char.toLower⟩

/-- Modelled from the spec: the platform `TextEncoder().encode` (absent from
src — a browser API). The spec (§4.1) only needs a deterministic, injective
byte view of the identity string; we take the codepoint sequence. -/
def encodeText (s : String) : List Nat := s.data.map Char.toNat

/-- Modelled from the spec: the platform SHA-256 digest
(`crypto.subtle.digest('SHA-256', ·)`, absent from src). The spec (§4.1) uses
it only to derive a deterministic salt from the identity, so it is modelled as
an ideal (deterministic, injective) digest. -/
def sha256 (bs : List Nat) : List Nat := 0 :: bs

/-- Modelled from the spec: the platform PBKDF2-HMAC-SHA256 derivation
(`crypto.subtle.deriveKey`, absent from src). Modelled as an ideal KDF,
injective in the (password, salt) pair — justified by spec §8, which asserts
distinct (case-normalized) identities yield distinct KEKs. The length prefix
makes the password/salt split unambiguous. -/
def pbkdf2 (password salt : List Nat) : List Nat :=
  password.length :: (password ++ salt)

/-- A Web Crypto `CryptoKey` handle for AES-256-GCM; `raw` holds the
exportable raw key bytes (the keys in this codebase are created extractable). -/
structure CryptoKey where
  raw : List Nat
deriving DecidableEq, Repr

/-- `exportKey` (encryption.ts): `crypto.subtle.exportKey('raw', key)`. -/
def exportKey (key : CryptoKey) : List Nat := key.raw

/-- `importKey` (encryption.ts): `crypto.subtle.importKey('raw', keyData, AES-GCM)`. -/
def importKey (keyData : List Nat) : CryptoKey := ⟨keyData⟩

/-- Modelled from the spec: the 128-bit GCM authentication tag of the platform
AEAD (absent from src). Any deterministic function of (key, iv, body) works
for the spec-level AEAD contract; decryption recomputes and compares it. -/
def gcmTag (key iv body : List Nat) : List Nat :=
  List.replicate 16 ((key.sum + 3 * iv.sum + 7 * body.sum + body.length) % 256)

/-- Modelled from the spec: the platform AES-256-GCM encryption
(`crypto.subtle.encrypt({name:'AES-GCM', iv}, key, data)`, absent from src).
Per spec §4.2 it is an AEAD: ciphertext carries body plus a 16-byte tag. -/
def gcmEncrypt (key iv data : List Nat) : List Nat :=
  data ++ gcmTag key iv data

/-- Modelled from the spec: the platform AES-256-GCM decryption
(`crypto.subtle.decrypt`, absent from src). Splits off the 16-byte tag,
recomputes it over the body and fails (`none`) on mismatch — the spec's
"authentication-tag mismatch signals DecryptionFailed, never garbage". -/
def gcmDecrypt (key iv ct : List Nat) : Option (List Nat) :=
  let body := ct.take (ct.length - 16)
  if 16 ≤ ct.length ∧ ct.drop (ct.length - 16) = gcmTag key iv body then
    some body
  else
    none

/-- `encryptFile` (encryption.ts lines 76–99). The 12-byte random IV drawn by
`crypto.getRandomValues(new Uint8Array(12))` is passed in explicitly (the
caller of the model supplies the random draw). Returns
`(encryptedData, iv)`, matching the source's `{ encryptedData, iv }`. -/
def encryptFile (fileData : List Nat) (key : CryptoKey) (iv : List Nat) :
    List Nat × List Nat :=
  (gcmEncrypt key.raw iv fileData, iv)

/-- `decryptFile` (encryption.ts lines 104–123): AES-GCM decryption; a failed
authentication throws `'Failed to decrypt file. Key may be incorrect.'`. -/
def decryptFile (encryptedData : List Nat) (iv : List Nat) (key : CryptoKey) :
    Except String (List Nat) :=
  match gcmDecrypt key.raw iv encryptedData with
  | some d => .ok d
  | none => .error "Failed to decrypt file. Key may be incorrect."

/-- `deriveKeyFromWallet` (encryption.ts lines 128–161): PBKDF2 over the
lower-cased address, salt = SHA-256 of `'ciphervault-' + address.toLowerCase()`. -/
def deriveKeyFromWallet (walletAddress : String) : CryptoKey :=
  let passwordData := encodeText (jsToLower walletAddress)
  let salt := sha256 (encodeText ("ciphervault-" ++ jsToLower walletAddress))
  ⟨pbkdf2 passwordData salt⟩

/-- `encryptFileKey` (encryption.ts lines 166–189): wraps the exported raw DEK
bytes under the wallet key with a fresh 12-byte IV (passed explicitly). -/
def encryptFileKey (fileKey : CryptoKey) (walletKey : CryptoKey) (iv : List Nat) :
    List Nat × List Nat :=
  (gcmEncrypt walletKey.raw iv (exportKey fileKey), iv)

/-- `decryptFileKey` (encryption.ts lines 194–214): unwraps and re-imports the
DEK; failure throws `'Failed to decrypt file key.'`. -/
def decryptFileKey (encryptedKey : List Nat) (iv : List Nat) (walletKey : CryptoKey) :
    Except String CryptoKey :=
  match gcmDecrypt walletKey.raw iv encryptedKey with
  | some d => .ok (importKey d)
  | none => .error "Failed to decrypt file key."

/-- The base64 alphabet used by `btoa`. -/
def base64Chars : List Char :=
  "ABCDEFGHIJKLMNOPQRSTUVWXYZabcdefghijklmnopqrstuvwxyz0123456789+/".data

def base64Char (n : Nat) : Char := base64Chars.getD n 'A'

/-- btoa-style base64 of a byte list, 3 bytes to 4 output characters with
`=` padding. -/
def base64Encode : List Nat → List Char
  | [] => []
  | [a] => [base64Char (a / 4), base64Char (a % 4 * 16), '=', '=']
  | [a, b] =>
      [base64Char (a / 4), base64Char (a % 4 * 16 + b / 16),
       base64Char (b % 16 * 4), '=']
  | a :: b :: c :: rest =>
      base64Char (a / 4) :: base64Char (a % 4 * 16 + b / 16) ::
      base64Char (b % 16 * 4 + c / 64) :: base64Char (c % 64) ::
      base64Encode rest

/-- `arrayBufferToBase64` (encryption.ts lines 270–277): byte-wise
`String.fromCharCode` then `btoa`. -/
def arrayBufferToBase64 (buffer : List Nat) : String := ⟨base64Encode buffer⟩

/-- The modelled AEAD round-trips: decrypting with the same key and IV
recovers the plaintext. -/
theorem gcmDecrypt_gcmEncrypt (key iv data : List Nat) :
    gcmDecrypt key iv (gcmEncrypt key iv data) = some data := by
  have htag : (gcmTag key iv data).length = 16 := by simp [gcmTag]
  have hlen : (gcmEncrypt key iv data).length - 16 = data.length := by
    simp [gcmEncrypt, htag]
  have htake : (gcmEncrypt key iv data).take data.length = data := by
    simp [gcmEncrypt, List.take_left]
  have hdrop : (gcmEncrypt key iv data).drop data.length = gcmTag key iv data := by
    simp [gcmEncrypt, List.drop_left]
  have hct : 16 ≤ (gcmEncrypt key iv data).length := by
    simp [gcmEncrypt, htag]
  simp only [gcmDecrypt, hlen, htake, hdrop]
  simp [hct]

/-- Health status union `'Healthy' | 'Degraded' | 'Recovering'`. -/
inductive HealthStatus
  | Healthy
  | Degraded
  | Recovering
deriving DecidableEq, Repr

/-- `FileMetadata` (metadata.ts interface): optional TS fields are `Option`s
(`string | null | undefined` collapses to `Option String`), timestamps are
`Int` milliseconds, sizes are `Int`. -/
structure FileMetadata where
  id : String
  name : String
  size : Int
  mimeType : String
  uploadedAt : Int
  cid : String
  encryptedKey : String
  keyIV : String
  fileIV : String
  walletAddress : String
  folderId : Option String := none
  classification : Option String := none
  isTrashed : Option Bool := none
  isStarred : Option Bool := none
  sharedWith : Option (List String) := none
  accessedAt : Option Int := none
  path : Option (List String) := none
  trashedAt : Option Int := none
  targetReplicas : Option Int := none
  currentReplicas : Option Int := none
  healthStatus : Option HealthStatus := none
  lastHealed : Option Int := none
deriving DecidableEq, Repr

/-- The IndexedDB `'files'` object store (`keyPath: 'id'`), as the list of its
records. -/
abbrev Store := List FileMetadata

/-- `IDBObjectStore.put`: upsert by the primary key `id`. -/
def putRecord (m : FileMetadata) (store : Store) : Store :=
  if store.any (fun r => r.id == m.id) then
    store.map (fun r => if r.id == m.id then m else r)
  else
    store ++ [m]

/-- The in-place normalization `saveFileMetadata` performs: lower-case a
truthy `walletAddress` (`if (metadata.walletAddress) ... .toLowerCase()`). -/
def normalizeOwner (m : FileMetadata) : FileMetadata :=
  if m.walletAddress = "" then m
  else { m with walletAddress := jsToLower m.walletAddress }

/-- `saveFileMetadata` (metadata.ts lines 331–351): normalize the owner
address, then put. -/
def saveFileMetadata (m : FileMetadata) (store : Store) : Store :=
  putRecord (normalizeOwner m) store

/-- `getFileById` (metadata.ts lines 402–418): IDB get by key (`|| null`). -/
def getFileById (id : String) (store : Store) : Option FileMetadata :=
  store.find? (fun r => r.id == id)

/-- `deleteFileMetadata` (metadata.ts lines 420–436): IDB delete by key. -/
def deleteFileMetadata (id : String) (store : Store) : Store :=
  store.filter (fun r => r.id != id)

/-- The per-record defaulting `getFilesByWallet` applies to each returned
record (metadata.ts lines 371–375): `targetReplicas ??= 3`,
`currentReplicas ??= 1`, falsy `healthStatus` becomes `'Degraded'`.
It mutates the deserialized copies returned by `getAll`, not the store. -/
def withReplicaDefaults (f : FileMetadata) : FileMetadata :=
  { f with
    targetReplicas := some (f.targetReplicas.getD 3),
    currentReplicas := some (f.currentReplicas.getD 1),
    healthStatus := some (f.healthStatus.getD .Degraded) }

/-- JS `Array.prototype.sort` with comparator
`(a, b) => b.uploadedAt - a.uploadedAt` — larger `uploadedAt` first. Insert
into an already-sorted tail. -/
def insertByUploadedAt (f : FileMetadata) : List FileMetadata → List FileMetadata
  | [] => [f]
  | g :: rest =>
    if f.uploadedAt ≤ g.uploadedAt then g :: insertByUploadedAt f rest
    else f :: g :: rest

/-- The descending-by-`uploadedAt` sort of the returned file list. Only the
permutation/membership behavior of the JS sort is relied upon. -/
def sortByUploadedAtDesc : List FileMetadata → List FileMetadata
  | [] => []
  | f :: rest => insertByUploadedAt f (sortByUploadedAtDesc rest)

/-- `getFilesByWallet` (metadata.ts lines 356–386): index lookup on the
lower-cased address, replica-field defaulting on the returned copies, then
sort by upload date, newest first. No trash filtering happens here. -/
def getFilesByWallet (walletAddress : String) (store : Store) : List FileMetadata :=
  let files :=
    (store.filter (fun r => r.walletAddress == jsToLower walletAddress)).map
      withReplicaDefaults
  sortByUploadedAtDesc files

/-- `moveFileToFolder` (metadata.ts lines 391–397): missing record is a
silent no-op; otherwise the record is unconditionally reparented — there is
no cycle or descendant check. -/
def moveFileToFolder (fileId : String) (folderId : Option String) (store : Store) :
    Store :=
  match getFileById fileId store with
  | none => store
  | some file => saveFileMetadata { file with folderId := folderId } store

/-- `handleBreadcrumbDrop` (App.tsx lines 652–672): for each dragged item,
skip when it is already in the target folder, skip when the item itself IS
the drop target (`file.id === targetFolderId`, the only cycle guard), else
`moveFileToFolder`. -/
def handleBreadcrumbDrop (draggedItems : List FileMetadata)
    (targetFolderId : Option String) (store : Store) : Store :=
  draggedItems.foldl (fun st file =>
    if file.folderId = targetFolderId then st
    else if some file.id = targetFolderId then st
    else moveFileToFolder file.id targetFolderId st) store

/-- `moveToTrash` (metadata.ts lines 441–448): soft delete; `now` is
`Date.now()`. Missing record: silent no-op. -/
def moveToTrash (id : String) (now : Int) (store : Store) : Store :=
  match getFileById id store with
  | none => store
  | some file =>
      saveFileMetadata { file with isTrashed := some true, trashedAt := some now }
        store

/-- `restoreFromTrash` (metadata.ts lines 453–460). Missing record: silent
no-op. -/
def restoreFromTrash (id : String) (store : Store) : Store :=
  match getFileById id store with
  | none => store
  | some file =>
      saveFileMetadata { file with isTrashed := some false, trashedAt := none }
        store

/-- `toggleStar` (metadata.ts lines 480–486): `file.isStarred = !file.isStarred`
(JS: an absent flag negates to `true`). Missing record: silent no-op. -/
def toggleStar (id : String) (store : Store) : Store :=
  match getFileById id store with
  | none => store
  | some file =>
      saveFileMetadata { file with isStarred := some (!(file.isStarred.getD false)) }
        store

/-- `updateAccessTime` (metadata.ts lines 491–497). Missing record: silent
no-op. -/
def updateAccessTime (id : String) (now : Int) (store : Store) : Store :=
  match getFileById id store with
  | none => store
  | some file => saveFileMetadata { file with accessedAt := some now } store

/-- JS truthiness of `file.trashedAt` (`undefined` and `0` are falsy). -/
def trashedAtTruthy : Option Int → Bool
  | none => false
  | some t => t != 0

/-- `30 * 24 * 60 * 60 * 1000`. -/
def millisPerThirtyDays : Int := 30 * 24 * 60 * 60 * 1000

/-- The per-file deletion condition of `cleanupTrash`
(`file.isTrashed && file.trashedAt && file.trashedAt < thirtyDaysAgo`). -/
def trashExpired (f : FileMetadata) (thirtyDaysAgo : Int) : Bool :=
  f.isTrashed.getD false && trashedAtTruthy f.trashedAt &&
    f.trashedAt.getD 0 < thirtyDaysAgo

/-- `cleanupTrash` (metadata.ts lines 465–475): hard-deletes the wallet's
trashed records strictly older than 30 days; `now` is `Date.now()`. -/
def cleanupTrash (walletAddress : String) (now : Int) (store : Store) : Store :=
  let files := getFilesByWallet (jsToLower walletAddress) store
  let thirtyDaysAgo := now - millisPerThirtyDays
  files.foldl (fun st file =>
    if trashExpired file thirtyDaysAgo then deleteFileMetadata file.id st else st)
    store

/-- A parsed element of the backup's `data.items` array. JSON is untyped:
`wallet` is the item's `walletAddress` field when it is present as a string
(`none` models an item on which `item.walletAddress.toLowerCase()` throws a
TypeError), and `fields` carries the rest of the record (its own
`walletAddress` entry is meaningful only when `wallet` is `some`). -/
structure BackupItem where
  wallet : Option String
  fields : FileMetadata
deriving DecidableEq, Repr

/-- The item loop of `importDatabase`. IndexedDB writes made before a thrown
TypeError persist, so the result is the store after the writes that happened
plus the error that escaped, if any. -/
def importItems : List BackupItem → String → Store → Store × Option String
  | [], _, store => (store, none)
  | item :: rest, w, store =>
    match item.wallet with
    | none => (store, some "TypeError: item.walletAddress is undefined")
    | some iw =>
      if jsToLower iw ≠ jsToLower w then importItems rest w store
      else importItems rest w
        (saveFileMetadata { item.fields with walletAddress := iw } store)

/-- `importDatabase` (metadata.ts lines 584–605), on the parsed backup JSON.
`items?` is `data.items` (`none`: absent or not an array, throwing
`'Invalid backup format'`). Matching items are saved, non-matching items are
skipped, an item without a string `walletAddress` throws (the catch logs and
rethrows). Returns the store after the writes that happened and the escaped
error, if any. -/
def importDatabase (itemsOpt : Option (List BackupItem)) (walletAddress : String)
    (store : Store) : Store × Option String :=
  match itemsOpt with
  | none => (store, some "Invalid backup format")
  | some items => importItems items walletAddress store

/-- The fixed public gateway list (metadata.ts lines 243–247). -/
def GATEWAYS : List String :=
  ["https://gateway.pinata.cloud/ipfs/",
   "https://ipfs.io/ipfs/",
   "https://cloudflare-ipfs.com/ipfs/"]

/-- `verifyReplicas` (metadata.ts lines 610–640). The network is abstracted by
`probe`: `probe gateway` is `true` exactly when the `HEAD gateway ++ cid`
request resolves with `response.ok` within its own 2-second timeout (a
timeout, network error or non-ok response counts `false`, as in the source's
catch branch). A falsy (empty) cid short-circuits to 0. -/
def verifyReplicas (cid : String) (probe : String → Bool) : Nat :=
  if cid = "" then 0
  else (GATEWAYS.map probe).count true

/-- `healFile` (metadata.ts lines 648–692). `pinOk` is the outcome of the
best-effort `ipfs.pinByHash` repair call — caught and logged on failure, it
never influences the result; `probe` is as in `verifyReplicas`; `now` is
`Date.now()`. The three-way status rule of the source is kept verbatim
(its `activeReplicas > 0` and `else` branches both yield `'Degraded'`). -/
def healFile (id : String) (probe : String → Bool) (_pinOk : Bool) (now : Int)
    (store : Store) : Store :=
  match getFileById id store with
  | none => store
  | some file =>
    if file.cid = "" then store
    else
      let store1 := saveFileMetadata { file with healthStatus := some .Recovering } store
      let activeReplicas := verifyReplicas file.cid probe
      match getFileById id store1 with
      | none => store1
      | some freshFile =>
          saveFileMetadata
            { freshFile with
              currentReplicas := some (activeReplicas : Int),
              lastHealed := some now,
              healthStatus := some
                (if 2 ≤ activeReplicas then HealthStatus.Healthy
                 else if 0 < activeReplicas then HealthStatus.Degraded
                 else HealthStatus.Degraded) }
            store1

/-- `generateFileKey` (encryption.ts lines 23–38): a fresh random 256-bit
AES-GCM key; the 32 random bytes are read from the supplied entropy stream. -/
def generateFileKey (entropy : Nat → Nat) : CryptoKey :=
  ⟨(List.range 32).map (fun i => entropy i % 256)⟩

/-- `crypto.getRandomValues(new Uint8Array(12))`: a 12-byte random IV read
from the supplied entropy stream. -/
def randomIV (entropy : Nat → Nat) : List Nat :=
  (List.range 12).map (fun i => entropy i % 256)

/-- Upload task status union (useUploadQueue.ts line 16). -/
inductive TaskStatus
  | queued
  | encrypting
  | uploading
  | completed
  | failed
deriving DecidableEq, Repr

/-- `UploadTask` (useUploadQueue.ts lines 13–21); the `file: File` member is
flattened into its name, size, MIME type and raw bytes. -/
structure UploadTask where
  id : String
  fileName : String
  fileSize : Int
  fileType : String
  fileBytes : List Nat
  status : TaskStatus := .queued
  progress : Int := 0
  error : Option String := none
  folderId : Option String := none
  classification : Option String := none
deriving DecidableEq, Repr

/-- The catch branch of the pipeline loop: `status: 'failed'` with the
captured message (`error.message || 'Upload failed'`). -/
def failTask (t : UploadTask) (msg : String) : UploadTask :=
  { t with status := .failed,
           error := some (if msg = "" then "Upload failed" else msg) }

/-- Per-task environment of one pipeline iteration: the entropy draws and the
outcome of every call that can throw. The platform crypto calls throw their
fixed wrapper messages; the storage upload either yields a content id or
throws a network error; the IndexedDB put can fail; the backend mirror call
(`api.createFile`) has its failure swallowed by an inner catch, so its
outcome `apiOk` never influences the result. -/
structure TaskEnv where
  genOk : Bool := true
  dekEntropy : Nat → Nat := fun _ => 0
  encryptOk : Bool := true
  fileIVEntropy : Nat → Nat := fun _ => 0
  deriveOk : Bool := true
  wrapOk : Bool := true
  keyIVEntropy : Nat → Nat := fun _ => 0
  uploadResult : List Nat → Except String String := fun _ => .ok "cid"
  saveOk : Bool := true
  apiOk : Bool := true
  now : Int := 0

/-- The body of the `for (const task of queuedTasks)` loop of `processQueue`
(useUploadQueue.ts lines 74–167): generate DEK → encrypt → derive KEK → wrap
DEK → upload → build `FileMetadata` → `saveFileMetadata` → completed; any
throw lands in the catch branch (`failTask`) with no record written
(the progress/status intermediate `setTasks` updates are advisory and
collapse into the final task value). -/
def processTask (walletAddress : String) (task : UploadTask) (env : TaskEnv)
    (store : Store) : UploadTask × Store :=
  if !env.genOk then (failTask task "Failed to generate encryption key.", store) else
  let fileKey := generateFileKey env.dekEntropy
  if !env.encryptOk then (failTask task "Failed to encrypt file.", store) else
  let fileIV := randomIV env.fileIVEntropy
  let encFile := encryptFile task.fileBytes fileKey fileIV
  if !env.deriveOk then
    (failTask task "Failed to derive encryption key from wallet.", store) else
  let walletKey := deriveKeyFromWallet walletAddress
  if !env.wrapOk then (failTask task "Failed to encrypt file key.", store) else
  let keyIV := randomIV env.keyIVEntropy
  let encKey := encryptFileKey fileKey walletKey keyIV
  match env.uploadResult encFile.1 with
  | .error e => (failTask task e, store)
  | .ok cid =>
    let fileMetadata : FileMetadata :=
      { id := task.id, name := task.fileName, size := task.fileSize,
        mimeType := task.fileType, uploadedAt := env.now, cid := cid,
        encryptedKey := arrayBufferToBase64 encKey.1,
        keyIV := arrayBufferToBase64 keyIV,
        fileIV := arrayBufferToBase64 fileIV,
        walletAddress := walletAddress,
        folderId := task.folderId, classification := task.classification }
    if !env.saveOk then (failTask task "Failed to save file metadata", store)
    else ({ task with status := .completed, progress := 100 },
          saveFileMetadata fileMetadata store)

/-- `processQueue` (useUploadQueue.ts lines 41–170): the queued tasks are
processed strictly one at a time, each with its own environment. -/
def processQueue (walletAddress : String) :
    List (UploadTask × TaskEnv) → Store → List UploadTask × Store
  | [], store => ([], store)
  | (t, env) :: rest, store =>
    let r1 := processTask walletAddress t env store
    let r2 := processQueue walletAddress rest r1.2
    (r1.1 :: r2.1, r2.2)

/-- Helper: `Char.toNat` is injective. -/
theorem charToNat_injective : Function.Injective Char.toNat := by
  intro c d h
  rw [← Char.ofNat_toNat c, ← Char.ofNat_toNat d, h]

/-- Helper: the modelled text encoder is injective. -/
theorem encodeText_injective : Function.Injective encodeText := by
  intro s t h
  exact String.ext (List.map_injective_iff.mpr charToNat_injective h)

/-- Helper: two identities derive the same KEK exactly when they agree after
lower-casing (the code derives everything from `walletAddress.toLowerCase()`). -/
theorem deriveKeyFromWallet_eq_iff (id1 id2 : String) :
    deriveKeyFromWallet id1 = deriveKeyFromWallet id2 ↔
      jsToLower id1 = jsToLower id2 := by
  constructor
  · intro h
    have h' := congrArg CryptoKey.raw h
    simp only [deriveKeyFromWallet, pbkdf2, List.cons.injEq] at h'
    obtain ⟨hlen, happ⟩ := h'
    exact encodeText_injective (List.append_inj happ hlen).1
  · intro h
    simp [deriveKeyFromWallet, h]

/-- C2: for every byte payload P, every AES-256-GCM key K and every random IV
draw, `decryptFile` applied to the ciphertext and IV produced by
`encryptFile(P, K)`, with the same key K, returns exactly P. -/
theorem encryptFile_decryptFile_roundtrip (P : List Nat) (K : CryptoKey) (iv : List Nat) :
    decryptFile (encryptFile P K iv).1 (encryptFile P K iv).2 K = .ok P := by
  simp [decryptFile, encryptFile, gcmDecrypt_gcmEncrypt]

/-- Helper: the key-wrap round trip at the raw level. -/
theorem unwrap_wrap_eq (D K : CryptoKey) (iv : List Nat) :
    decryptFileKey (encryptFileKey D K iv).1 iv K = .ok D := by
  simp [decryptFileKey, encryptFileKey, exportKey, importKey,
    gcmDecrypt_gcmEncrypt]

/-- C3: for every DEK D and KEK K, `decryptFileKey` applied to the wrapped key
and IV produced by `encryptFileKey(D, K)`, with the same K, yields a key that
behaves identically to D under both encryption and decryption. -/
theorem encryptFileKey_decryptFileKey_roundtrip (D K : CryptoKey) (iv : List Nat) :
    ∃ D', decryptFileKey (encryptFileKey D K iv).1 (encryptFileKey D K iv).2 K
            = .ok D' ∧
      (∀ p iv2, encryptFile p D' iv2 = encryptFile p D iv2) ∧
      (∀ ct iv2, decryptFile ct iv2 D' = decryptFile ct iv2 D) := by
  refine ⟨D, ?_, fun _ _ => rfl, fun _ _ => rfl⟩
  simp [decryptFileKey, encryptFileKey, exportKey, importKey,
    gcmDecrypt_gcmEncrypt]

/-- C4: `deriveKeyFromWallet` is deterministic and case-insensitive in the
identity: identities equal after lower-casing give the same KEK (so a key
wrapped under the KEK for one unwraps under the KEK for the other), and
identities that differ after lower-casing give different KEKs. -/
theorem deriveKeyFromWallet_caseInsensitive (id1 id2 id3 : String)
    (D : CryptoKey) (iv : List Nat)
    (hsame : jsToLower id1 = jsToLower id2)
    (hdiff : jsToLower id1 ≠ jsToLower id3) :
    deriveKeyFromWallet id1 = deriveKeyFromWallet id2 ∧
    deriveKeyFromWallet id1 ≠ deriveKeyFromWallet id3 ∧
    decryptFileKey (encryptFileKey D (deriveKeyFromWallet id1) iv).1 iv
      (deriveKeyFromWallet id2) = .ok D := by
  have heq : deriveKeyFromWallet id1 = deriveKeyFromWallet id2 :=
    (deriveKeyFromWallet_eq_iff id1 id2).mpr hsame
  refine ⟨heq, fun h => hdiff ((deriveKeyFromWallet_eq_iff id1 id3).mp h), ?_⟩
  rw [← heq]
  exact unwrap_wrap_eq D (deriveKeyFromWallet id1) iv

/-- A concrete file record for witnesses and counterexamples. -/
def demoFile : FileMetadata :=
  { id := "file-1", name := "a.txt", size := 10, mimeType := "text/plain",
    uploadedAt := 1000, cid := "QmDemo", encryptedKey := "ZWs=",
    keyIV := "aXY=", fileIV := "aXY=", walletAddress := "0xaaa" }

/-- A concrete root folder record (folders are records with the sentinel
`'application/folder'` MIME type, per `createFolder`). -/
def folderA : FileMetadata :=
  { id := "A", name := "FolderA", size := 0, mimeType := "application/folder",
    uploadedAt := 1, cid := "", encryptedKey := "", keyIV := "", fileIV := "",
    walletAddress := "0xaaa", folderId := none, isTrashed := some false,
    isStarred := some false }

/-- A concrete child folder of `folderA`. -/
def folderB : FileMetadata :=
  { folderA with id := "B", name := "FolderB", uploadedAt := 2,
                 folderId := some "A" }

/-- C10: the mutation operations are silent no-ops on an id with no record:
they return normally (they are total, with no error path taken) and leave the
store unchanged. -/
theorem mutations_missing_id_noop (id : String) (now : Int) (store : Store)
    (h : getFileById id store = none) :
    moveToTrash id now store = store ∧
    restoreFromTrash id store = store ∧
    toggleStar id store = store ∧
    updateAccessTime id now store = store := by
  refine ⟨?_, ?_, ?_, ?_⟩ <;>
    simp [moveToTrash, restoreFromTrash, toggleStar, updateAccessTime, h]

/-- Witness for C10 on a concrete store and a concrete absent id. -/
theorem mutations_missing_id_noop_witness :
    getFileById "missing" [demoFile] = none ∧
    (moveToTrash "missing" 5000 [demoFile] = [demoFile] ∧
     restoreFromTrash "missing" [demoFile] = [demoFile] ∧
     toggleStar "missing" [demoFile] = [demoFile] ∧
     updateAccessTime "missing" 5000 [demoFile] = [demoFile]) :=
  ⟨by decide, mutations_missing_id_noop "missing" 5000 [demoFile] (by decide)⟩

/-- C5 (code bug): there is no cycle rejection. Moving folder `A` into its
own child `B` goes through `moveFileToFolder` unconditionally, mutating the
store into a parent cycle `A → B → A` and signalling no error; the breadcrumb
drop handler's only guard (`file.id === targetFolderId`) does not stop it
either. -/
theorem moveFileToFolder_no_cycle_rejection :
    (moveFileToFolder "A" (some "B") [folderA, folderB]).map
        (fun r => (r.id, r.folderId)) = [("A", some "B"), ("B", some "A")] ∧
    handleBreadcrumbDrop [folderA] (some "B") [folderA, folderB]
      = moveFileToFolder "A" (some "B") [folderA, folderB] := by
  decide

/-- Helper: inserting into the sorted list preserves membership. -/
theorem mem_insertByUploadedAt (f g : FileMetadata) (l : List FileMetadata) :
    g ∈ insertByUploadedAt f l ↔ g = f ∨ g ∈ l := by
  induction l with
  | nil => simp [insertByUploadedAt]
  | cons h t ih =>
      simp only [insertByUploadedAt]
      split
      · simp only [List.mem_cons, ih]
        tauto
      · simp only [List.mem_cons]

/-- Helper: the upload-date sort is a permutation at the membership level. -/
theorem mem_sortByUploadedAtDesc (l : List FileMetadata) (g : FileMetadata) :
    g ∈ sortByUploadedAtDesc l ↔ g ∈ l := by
  induction l with
  | nil => simp [sortByUploadedAtDesc]
  | cons f t ih => simp [sortByUploadedAtDesc, mem_insertByUploadedAt, ih]

/-- A concrete trashed record owned by `0xaaa`. -/
def trashedDemo : FileMetadata :=
  { demoFile with id := "file-2", isTrashed := some true, trashedAt := some 500 }

/-- C6 counterexample: a trashed record IS returned by `getFilesByWallet`
(with its `isTrashed` flag intact), contradicting "records with isTrashed set
are excluded from the returned sequence". -/
theorem getFilesByWallet_returns_trashed :
    trashedDemo.isTrashed = some true ∧
    getFilesByWallet "0xAAA" [trashedDemo] = [withReplicaDefaults trashedDemo] ∧
    (withReplicaDefaults trashedDemo).isTrashed = some true := by
  decide

/-- Helper: membership characterization of `getFilesByWallet` — every record
of the owner is returned (with replica defaults applied), with no filtering
by trash state. -/
theorem mem_getFilesByWallet (w : String) (store : Store) (r : FileMetadata) :
    r ∈ getFilesByWallet w store ↔
      ∃ s ∈ store, s.walletAddress = jsToLower w ∧ r = withReplicaDefaults s := by
  simp only [getFilesByWallet, mem_sortByUploadedAtDesc, List.mem_map,
    List.mem_filter, beq_iff_eq]
  constructor
  · rintro ⟨a, ⟨ha, hw⟩, heq⟩
    exact ⟨a, ha, hw, heq.symm⟩
  · rintro ⟨a, ha, hw, heq⟩
    exact ⟨a, ⟨ha, hw⟩, heq.symm⟩

/-- C6 amended: `getFilesByWallet` returns ALL records whose stored owner
equals the lower-cased queried address — trashed records included, their
`isTrashed` flag untouched by the replica defaulting — so the store performs
no trash filtering; callers apply it themselves. -/
theorem getFilesByWallet_no_trash_filter (w : String) (store : Store)
    (r : FileMetadata) :
    (r ∈ getFilesByWallet w store ↔
      ∃ s ∈ store, s.walletAddress = jsToLower w ∧ r = withReplicaDefaults s) ∧
    (withReplicaDefaults r).isTrashed = r.isTrashed :=
  ⟨mem_getFilesByWallet w store r, rfl⟩

/-- Helper: `Char.ofNat` at a valid codepoint round-trips through `toNat`. -/
theorem toNat_ofNat_valid (n : Nat) (h : n.isValidChar) :
    (Char.ofNat n).toNat = n := by
  simp [Char.ofNat, h, Char.ofNatAux, Char.toNat, UInt32.toNat, UInt32.ofNatCore]

/-- Helper: a character outside the ASCII uppercase range is fixed by
`Char.toLower`. -/
theorem toLower_eq_self (d : Char) (h : ¬(d.toNat ≥ 65 ∧ d.toNat ≤ 90)) :
    d.toLower = d := by
  simp [Char.toLower, h]

/-- Helper: ASCII lower-casing is idempotent. -/
theorem charToLower_idem (c : Char) : c.toLower.toLower = c.toLower := by
  by_cases h : c.toNat ≥ 65 ∧ c.toNat ≤ 90
  · have h1 : c.toLower = Char.ofNat (c.toNat + 32) := by
      simp [Char.toLower, h]
    have hv : (c.toNat + 32).isValidChar := Or.inl (by omega)
    have h2 : c.toLower.toNat = c.toNat + 32 := by
      rw [h1]
      exact toNat_ofNat_valid _ hv
    exact toLower_eq_self _ (by rw [h2]; omega)
  · rw [toLower_eq_self c h]
    exact toLower_eq_self c h

/-- Helper: JS lower-casing is idempotent. -/
theorem jsToLower_idem (s : String) : jsToLower (jsToLower s) = jsToLower s := by
  apply String.ext
  simp only [jsToLower, List.map_map]
  exact List.map_congr_left (fun a _ => charToLower_idem a)

/-- Helper: the trash-cleanup fold deletes exactly the ids of the condemned
files. -/
theorem foldl_delete_filter (cond : FileMetadata → Bool) (files : List FileMetadata) :
    ∀ st : Store,
      files.foldl (fun s f => if cond f then deleteFileMetadata f.id s else s) st
        = st.filter (fun r => !(files.any (fun f => cond f && f.id == r.id))) := by
  induction files with
  | nil => intro st; simp
  | cons f t ih =>
      intro st
      simp only [List.foldl_cons]
      by_cases hc : cond f = true
      · rw [hc, if_pos rfl, ih, deleteFileMetadata, List.filter_filter]
        apply List.filter_congr
        intro r _
        by_cases hid : f.id = r.id
        · simp [List.any_cons, hc, hid, bne]
        · have h1 : (f.id == r.id) = false := beq_eq_false_iff_ne.mpr hid
          have h2 : (r.id == f.id) = false :=
            beq_eq_false_iff_ne.mpr (fun h => hid h.symm)
          simp [List.any_cons, hc, h1, h2, bne]
      · rw [Bool.not_eq_true] at hc
        rw [hc, if_neg (by simp), ih]
        apply List.filter_congr
        intro r _
        simp [List.any_cons, hc]

/-- A concrete record trashed at T = 1000. -/
def trashedOldDemo : FileMetadata :=
  { demoFile with isTrashed := some true, trashedAt := some 1000 }

/-- C7 counterexample: at exactly the 30-day boundary (now − T = 30 days, so
now − T ≥ 30 days holds) `cleanupTrash` does NOT delete the record — the
source compares with strict `<` against `now - 30 days`. -/
theorem cleanupTrash_boundary_counterexample :
    trashedOldDemo.isTrashed = some true ∧
    trashedOldDemo.trashedAt = some 1000 ∧
    millisPerThirtyDays ≤ 1000 + millisPerThirtyDays - 1000 ∧
    cleanupTrash "0xaaa" (1000 + millisPerThirtyDays) [trashedOldDemo]
      = [trashedOldDemo] := by
  decide

/-- Helper: the deletion condition of `cleanupTrash`, characterized — the
record is trashed, its `trashedAt` is a nonzero timestamp, and that timestamp
is strictly below the cutoff. -/
theorem trashExpired_iff (f : FileMetadata) (d : Int) :
    trashExpired f d = true ↔
      f.isTrashed = some true ∧ ∃ t, f.trashedAt = some t ∧ t ≠ 0 ∧ t < d := by
  unfold trashExpired trashedAtTruthy
  cases hts : f.isTrashed with
  | none => simp
  | some b =>
    cases b with
    | false => simp
    | true =>
      cases htt : f.trashedAt with
      | none => simp
      | some t => simp [bne_iff_ne, and_assoc]

/-- Helper: replica defaulting does not touch the trash fields. -/
theorem trashExpired_withDefaults (f : FileMetadata) (d : Int) :
    trashExpired (withReplicaDefaults f) d = trashExpired f d := rfl

/-- C7 amended: `cleanupTrash` permanently deletes a record exactly when it
is owned by the queried wallet and trashed with a nonzero timestamp T such
that now − T is STRICTLY greater than 30 days; in particular it never deletes
an untrashed record, and a record at or inside the 30-day boundary survives. -/
theorem cleanupTrash_deletes_iff (w : String) (now : Int) (store : Store)
    (hids : (store.map (fun r => r.id)).Nodup) (r : FileMetadata)
    (hr : r ∈ store) :
    r ∈ cleanupTrash w now store ↔
      ¬(r.walletAddress = jsToLower w ∧ r.isTrashed = some true ∧
        ∃ t, r.trashedAt = some t ∧ t ≠ 0 ∧ millisPerThirtyDays < now - t) := by
  rw [cleanupTrash, foldl_delete_filter, List.mem_filter]
  simp only [hr, true_and, Bool.not_eq_true', List.any_eq_false, Bool.and_eq_true,
    beq_iff_eq]
  constructor
  · intro h hC
    obtain ⟨hw, hts, t, ht, ht0, htd⟩ := hC
    refine h (withReplicaDefaults r) ?_ ⟨?_, rfl⟩
    · rw [mem_getFilesByWallet]
      exact ⟨r, hr, by rw [hw, jsToLower_idem], rfl⟩
    · rw [trashExpired_withDefaults, trashExpired_iff]
      exact ⟨hts, t, ht, ht0, by omega⟩
  · intro hC f hf hcond
    obtain ⟨hexp, hid⟩ := hcond
    obtain ⟨s, hs, hsw, rfl⟩ := (mem_getFilesByWallet (jsToLower w) store f).mp hf
    rw [jsToLower_idem] at hsw
    have hsr : s = r := List.inj_on_of_nodup_map hids hs hr hid
    subst hsr
    rw [trashExpired_withDefaults, trashExpired_iff] at hexp
    obtain ⟨hts, t, ht, ht0, htd⟩ := hexp
    exact hC ⟨hsw, hts, t, ht, ht0, by omega⟩

/-- Witness for C7 on a concrete store, one millisecond past the boundary. -/
theorem cleanupTrash_deletes_iff_witness :
    ([trashedOldDemo].map (fun r => r.id)).Nodup ∧
    trashedOldDemo ∈ [trashedOldDemo] ∧
    (trashedOldDemo ∈
        cleanupTrash "0xaaa" (1001 + millisPerThirtyDays) [trashedOldDemo] ↔
      ¬(trashedOldDemo.walletAddress = jsToLower "0xaaa" ∧
        trashedOldDemo.isTrashed = some true ∧
        ∃ t, trashedOldDemo.trashedAt = some t ∧ t ≠ 0 ∧
          millisPerThirtyDays < 1001 + millisPerThirtyDays - t)) :=
  ⟨by decide, by decide,
    cleanupTrash_deletes_iff "0xaaa" (1001 + millisPerThirtyDays)
      [trashedOldDemo] (by decide) trashedOldDemo (by decide)⟩

/-- Helper: a record present after a put is an old record or the put one. -/
theorem mem_putRecord (m r : FileMetadata) (store : Store)
    (h : r ∈ putRecord m store) : r ∈ store ∨ r = m := by
  unfold putRecord at h
  split at h
  · obtain ⟨a, ha, hr⟩ := List.mem_map.mp h
    by_cases hid : (a.id == m.id) = true
    · rw [if_pos hid] at hr
      exact Or.inr hr.symm
    · rw [if_neg hid] at hr
      exact Or.inl (hr ▸ ha)
  · rcases List.mem_append.mp h with h1 | h1
    · exact Or.inl h1
    · simp only [List.mem_singleton] at h1
      exact Or.inr h1

/-- Helper: the same, through the owner normalization of `saveFileMetadata`. -/
theorem mem_saveFileMetadata (m r : FileMetadata) (store : Store)
    (h : r ∈ saveFileMetadata m store) : r ∈ store ∨ r = normalizeOwner m :=
  mem_putRecord _ r store h

/-- Helper: the owner a record carries after save-time normalization. -/
theorem normalizeOwner_walletAddress (m : FileMetadata) :
    (normalizeOwner m).walletAddress = jsToLower m.walletAddress := by
  unfold normalizeOwner
  split
  · rename_i h
    rw [h]
    rfl
  · rfl

/-- Helper: records present after the import loop are pre-existing ones or
carry the importing identity (lower-cased) as owner. -/
theorem importItems_owner (w : String) :
    ∀ (items : List BackupItem) (store : Store) (r : FileMetadata),
      r ∈ (importItems items w store).1 →
        r ∈ store ∨ r.walletAddress = jsToLower w := by
  intro items
  induction items with
  | nil =>
      intro store r h
      exact Or.inl h
  | cons item rest ih =>
      intro store r h
      cases hwal : item.wallet with
      | none =>
          simp only [importItems, hwal] at h
          exact Or.inl h
      | some iw =>
          simp only [importItems, hwal] at h
          by_cases hm : jsToLower iw ≠ jsToLower w
          · rw [if_pos hm] at h
            exact ih store r h
          · rw [if_neg hm] at h
            push_neg at hm
            rcases ih _ r h with h1 | h1
            · rcases mem_saveFileMetadata _ r store h1 with h2 | h2
              · exact Or.inl h2
              · right
                rw [h2, normalizeOwner_walletAddress]
                exact hm
            · exact Or.inr h1

/-- The records `importDatabase` writes, in order: exactly the matching
items (those whose `walletAddress` equals the importing identity after
lower-casing), carrying their own declared owner into the save. -/
def matchingImports (items : List BackupItem) (w : String) : List FileMetadata :=
  items.filterMap (fun item => item.wallet.bind (fun iw =>
    if jsToLower iw = jsToLower w
    then some { item.fields with walletAddress := iw }
    else none))

/-- Helper: when every item carries a string walletAddress, the import loop
finishes cleanly and performs exactly the matching saves, in order. -/
theorem importItems_ok (w : String) :
    ∀ (items : List BackupItem) (store : Store),
      (∀ item ∈ items, item.wallet ≠ none) →
      importItems items w store
        = ((matchingImports items w).foldl (fun st m => saveFileMetadata m st)
            store, none) := by
  intro items
  induction items with
  | nil =>
      intro store _
      rfl
  | cons item rest ih =>
      intro store hall
      cases hwal : item.wallet with
      | none => exact absurd hwal (hall item (List.mem_cons_self item rest))
      | some iw =>
          have hrest : ∀ it ∈ rest, it.wallet ≠ none :=
            fun it hit => hall it (List.mem_cons_of_mem item hit)
          by_cases hm : jsToLower iw = jsToLower w
          · simp only [importItems, hwal, if_neg (not_not_intro hm),
              matchingImports, List.filterMap_cons, Option.some_bind, if_pos hm,
              List.foldl_cons]
            exact ih _ hrest
          · simp only [importItems, hwal, if_pos hm, matchingImports,
              List.filterMap_cons, Option.some_bind, if_neg hm]
            exact ih store hrest

/-- C8 counterexample: a backup item lacking a string `walletAddress` — an
item not matching the importing identity — is not silently skipped:
`item.walletAddress.toLowerCase()` throws, the catch rethrows, and so the
whole import raises (with nothing written). -/
theorem importDatabase_raises_on_missing_wallet :
    (importDatabase (some [⟨none, demoFile⟩]) "0xaaa" []).2
      = some "TypeError: item.walletAddress is undefined" ∧
    (importDatabase (some [⟨none, demoFile⟩]) "0xaaa" []).1 = [] := by
  decide

/-- C8 amended: when every item of the backup carries a string
`walletAddress`, the import raises nothing and writes exactly the items whose
owner matches the importing identity case-insensitively, in order; and every
record of the resulting store is a pre-existing one or carries the importing
identity (lower-cased) — cross-tenant records are never written. An item
without a string `walletAddress` instead makes the import throw. -/
theorem importDatabase_owner_isolation (items : List BackupItem) (w : String)
    (store : Store) (hall : ∀ item ∈ items, item.wallet ≠ none) :
    (importDatabase (some items) w store).2 = none ∧
    (importDatabase (some items) w store).1
      = (matchingImports items w).foldl (fun st m => saveFileMetadata m st)
          store ∧
    ∀ r ∈ (importDatabase (some items) w store).1,
      r ∈ store ∨ r.walletAddress = jsToLower w := by
  have hspec := importItems_ok w items store hall
  refine ⟨?_, ?_, ?_⟩
  · simp [importDatabase, hspec]
  · simp [importDatabase, hspec]
  · intro r hrmem
    exact importItems_owner w items store r hrmem

/-- Witness for C8: one matching and one foreign item. -/
theorem importDatabase_owner_isolation_witness :
    (∀ item ∈ [BackupItem.mk (some "0xAAA") demoFile,
               BackupItem.mk (some "0xbbb") { demoFile with id := "file-9" }],
        item.wallet ≠ none) ∧
    ((importDatabase
        (some [BackupItem.mk (some "0xAAA") demoFile,
               BackupItem.mk (some "0xbbb") { demoFile with id := "file-9" }])
        "0xaaa" []).2 = none ∧
     (importDatabase
        (some [BackupItem.mk (some "0xAAA") demoFile,
               BackupItem.mk (some "0xbbb") { demoFile with id := "file-9" }])
        "0xaaa" []).1
        = (matchingImports
            [BackupItem.mk (some "0xAAA") demoFile,
             BackupItem.mk (some "0xbbb") { demoFile with id := "file-9" }]
            "0xaaa").foldl (fun st m => saveFileMetadata m st) [] ∧
     ∀ r ∈ (importDatabase
        (some [BackupItem.mk (some "0xAAA") demoFile,
               BackupItem.mk (some "0xbbb") { demoFile with id := "file-9" }])
        "0xaaa" []).1, r ∈ ([] : Store) ∨ r.walletAddress = jsToLower "0xaaa") :=
  ⟨by decide,
    importDatabase_owner_isolation
      [BackupItem.mk (some "0xAAA") demoFile,
       BackupItem.mk (some "0xbbb") { demoFile with id := "file-9" }]
      "0xaaa" [] (by decide)⟩

/-- Helper: upserting into a store that holds the id replaces it, and the
lookup finds the new record. -/
theorem find?_map_upsert (m : FileMetadata) :
    ∀ store : Store, store.any (fun r => r.id == m.id) = true →
      (store.map (fun r => if r.id == m.id then m else r)).find?
          (fun r => r.id == m.id) = some m := by
  intro store
  induction store with
  | nil =>
      intro h
      simp at h
  | cons a t ih =>
      intro h
      simp only [List.any_cons, Bool.or_eq_true] at h
      by_cases ha : (a.id == m.id) = true
      · simp only [List.map_cons, if_pos ha]
        exact List.find?_cons_of_pos _ (by simp)
      · have ht := h.resolve_left ha
        simp only [List.map_cons, if_neg ha]
        rw [List.find?_cons_of_neg (p := fun r : FileMetadata => r.id == m.id) _ ha]
        exact ih ht

/-- Helper: after a put, lookup by the put record's id finds it. -/
theorem getFileById_putRecord (m : FileMetadata) (store : Store) :
    getFileById m.id (putRecord m store) = some m := by
  unfold getFileById putRecord
  cases hb : store.any (fun r => r.id == m.id) with
  | true =>
      simp only [hb, if_pos]
      exact find?_map_upsert m store hb
  | false =>
      simp only [hb, Bool.false_eq_true, if_neg, not_false_eq_true]
      rw [List.find?_append]
      have hnone : store.find? (fun r => r.id == m.id) = none := by
        rw [List.find?_eq_none]
        intro x hx
        simpa using List.any_eq_false.mp hb x hx
      simp [hnone]

/-- Helper: the fields `normalizeOwner` leaves untouched. -/
theorem normalizeOwner_fields (m : FileMetadata) :
    (normalizeOwner m).id = m.id ∧ (normalizeOwner m).cid = m.cid ∧
    (normalizeOwner m).encryptedKey = m.encryptedKey ∧
    (normalizeOwner m).keyIV = m.keyIV ∧
    (normalizeOwner m).fileIV = m.fileIV ∧
    (normalizeOwner m).currentReplicas = m.currentReplicas ∧
    (normalizeOwner m).healthStatus = m.healthStatus := by
  unfold normalizeOwner
  split <;> exact ⟨rfl, rfl, rfl, rfl, rfl, rfl, rfl⟩

/-- Helper: after a save, lookup by the saved record's id finds the
normalized record. -/
theorem getFileById_saveFileMetadata (m : FileMetadata) (store : Store) :
    getFileById m.id (saveFileMetadata m store) = some (normalizeOwner m) := by
  have h := getFileById_putRecord (normalizeOwner m) store
  rw [(normalizeOwner_fields m).1] at h
  exact h

/-- Helper: a successful lookup returns a record carrying the looked-up id. -/
theorem getFileById_some_id (id : String) (store : Store) (f : FileMetadata)
    (h : getFileById id store = some f) : f.id = id := by
  have := List.find?_some h
  simpa using this

/-- C9: `verifyReplicas` returns the number of the fixed set of 3 gateway
probes that succeed within their per-probe timeout (0 for an empty cid), and
`healFile` maps the measured count to health: ≥ 2 gives Healthy, 1 gives
Degraded, 0 also gives Degraded — no separate lost state. -/
theorem verifyReplicas_healFile_policy (probe : String → Bool) (pinOk : Bool)
    (now : Int) (store : Store) (id : String) (f : FileMetadata)
    (hf : getFileById id store = some f) (hcid : f.cid ≠ "") :
    GATEWAYS.length = 3 ∧
    verifyReplicas "" probe = 0 ∧
    verifyReplicas f.cid probe = (GATEWAYS.map probe).count true ∧
    ∃ r, getFileById id (healFile id probe pinOk now store) = some r ∧
      r.currentReplicas = some ((verifyReplicas f.cid probe : Nat) : Int) ∧
      r.healthStatus = some (if 2 ≤ verifyReplicas f.cid probe
        then HealthStatus.Healthy else HealthStatus.Degraded) := by
  have hfid : f.id = id := getFileById_some_id id store f hf
  refine ⟨rfl, rfl, by simp [verifyReplicas, hcid], ?_⟩
  unfold healFile
  simp only [hf]
  rw [if_neg hcid]
  have h1 : getFileById id
      (saveFileMetadata { f with healthStatus := some .Recovering } store)
      = some (normalizeOwner { f with healthStatus := some .Recovering }) := by
    have hMid : ({ f with healthStatus := some HealthStatus.Recovering
        : FileMetadata }).id = id := hfid
    rw [← hMid]
    exact getFileById_saveFileMetadata _ store
  simp only [h1]
  set g := normalizeOwner { f with healthStatus := some HealthStatus.Recovering }
    with hg
  refine ⟨normalizeOwner { g with
      currentReplicas := some ((verifyReplicas f.cid probe : Nat) : Int),
      lastHealed := some now,
      healthStatus := some (if 2 ≤ verifyReplicas f.cid probe
        then HealthStatus.Healthy
        else if 0 < verifyReplicas f.cid probe then HealthStatus.Degraded
        else HealthStatus.Degraded) }, ?_, ?_, ?_⟩
  · have hgid : ({ g with
        currentReplicas := some ((verifyReplicas f.cid probe : Nat) : Int),
        lastHealed := some now,
        healthStatus := some (if 2 ≤ verifyReplicas f.cid probe
          then HealthStatus.Healthy
          else if 0 < verifyReplicas f.cid probe then HealthStatus.Degraded
          else HealthStatus.Degraded) : FileMetadata }).id = id := by
      show g.id = id
      rw [hg, (normalizeOwner_fields _).1]
      exact hfid
    rw [← hgid]
    exact getFileById_saveFileMetadata _ _
  · rw [(normalizeOwner_fields _).2.2.2.2.2.1]
  · rw [(normalizeOwner_fields _).2.2.2.2.2.2]
    by_cases h2 : 2 ≤ verifyReplicas f.cid probe <;> simp [h2]

/-- Witness for C9: a store holding `demoFile` and probes that all succeed. -/
theorem verifyReplicas_healFile_policy_witness :
    getFileById "file-1" [demoFile] = some demoFile ∧
    demoFile.cid ≠ "" ∧
    (GATEWAYS.length = 3 ∧
     verifyReplicas "" (fun _ => true) = 0 ∧
     verifyReplicas demoFile.cid (fun _ => true)
       = (GATEWAYS.map (fun _ => true)).count true ∧
     ∃ r, getFileById "file-1"
          (healFile "file-1" (fun _ => true) true 7000 [demoFile]) = some r ∧
       r.currentReplicas
         = some ((verifyReplicas demoFile.cid (fun _ => true) : Nat) : Int) ∧
       r.healthStatus = some (if 2 ≤ verifyReplicas demoFile.cid (fun _ => true)
         then HealthStatus.Healthy else HealthStatus.Degraded)) :=
  ⟨by decide, by decide,
    verifyReplicas_healFile_policy (fun _ => true) true 7000 [demoFile]
      "file-1" demoFile (by decide) (by decide)⟩

/-- Helper: base64 of a nonempty byte list is nonempty. -/
theorem base64Encode_ne_nil : ∀ {l : List Nat}, l ≠ [] → base64Encode l ≠ []
  | [], h => absurd rfl h
  | [_], _ => by simp [base64Encode]
  | [_, _], _ => by simp [base64Encode]
  | _ :: _ :: _ :: _, _ => by simp [base64Encode]

/-- Helper: `arrayBufferToBase64` of a nonempty buffer is a nonempty string. -/
theorem arrayBufferToBase64_ne_empty {l : List Nat} (h : l ≠ []) :
    arrayBufferToBase64 l ≠ "" := by
  intro hc
  exact base64Encode_ne_nil h (congrArg String.data hc)

/-- Helper: the 12-byte IV draw is never empty. -/
theorem randomIV_ne_nil (e : Nat → Nat) : randomIV e ≠ [] := by
  simp [randomIV, List.range_succ]

/-- Helper: an AEAD ciphertext is never empty (it carries the 16-byte tag). -/
theorem gcmEncrypt_ne_nil (key iv data : List Nat) :
    gcmEncrypt key iv data ≠ [] := by
  simp [gcmEncrypt, gcmTag]

/-- Helper: putting a record with a fresh id leaves it as the single record
under that id. -/
theorem filter_putRecord_fresh (m : FileMetadata) (store : Store)
    (h : ∀ r ∈ store, r.id ≠ m.id) :
    (putRecord m store).filter (fun s => s.id == m.id) = [m] := by
  have hany : store.any (fun r => r.id == m.id) = false := by
    rw [List.any_eq_false]
    intro r hr
    simpa using h r hr
  have hnil : store.filter (fun s => s.id == m.id) = [] := by
    rw [List.filter_eq_nil_iff]
    intro r hr
    simpa using h r hr
  simp [putRecord, hany, List.filter_append, hnil]

/-- Helper: the same through `saveFileMetadata`, whose normalization keeps
the id. -/
theorem filter_save_fresh (m : FileMetadata) (i : String) (store : Store)
    (hi : m.id = i) (h : ∀ r ∈ store, r.id ≠ i) :
    (saveFileMetadata m store).filter (fun s => s.id == i)
      = [normalizeOwner m] := by
  subst hi
  have hid := (normalizeOwner_fields m).1
  have h' : ∀ r ∈ store, r.id ≠ (normalizeOwner m).id := by
    intro r hr
    rw [hid]
    exact h r hr
  have hfil := filter_putRecord_fresh (normalizeOwner m) store h'
  unfold saveFileMetadata
  rw [← hid]
  exact hfil

/-- C1: pipeline atomicity. For a task with a fresh id, once the pipeline
body settles exactly one of two outcomes holds: the task is Completed and the
store holds exactly one record under the task's id, whose content id,
wrapped key, key IV and file IV are all non-empty; or the task is Failed with
a captured error string and the store holds no record under the task's id.
The hypothesis `hcid` is the storage-client contract that a successful upload
returns a non-empty content id. -/
theorem processTask_atomic (walletAddress : String) (task : UploadTask)
    (env : TaskEnv) (store : Store)
    (hfresh : ∀ r ∈ store, r.id ≠ task.id)
    (hcid : ∀ ct c, env.uploadResult ct = .ok c → c ≠ "") :
    ((processTask walletAddress task env store).1.status = .completed ∧
      ∃ r, (processTask walletAddress task env store).2.filter
              (fun s => s.id == task.id) = [r] ∧
        r.cid ≠ "" ∧ r.encryptedKey ≠ "" ∧ r.keyIV ≠ "" ∧ r.fileIV ≠ "") ∨
    ((processTask walletAddress task env store).1.status = .failed ∧
      (∃ e, (processTask walletAddress task env store).1.error = some e) ∧
      ∀ r ∈ (processTask walletAddress task env store).2, r.id ≠ task.id) := by
  simp only [processTask]
  cases hg : env.genOk with
  | false => exact Or.inr ⟨rfl, ⟨_, rfl⟩, hfresh⟩
  | true =>
  cases he : env.encryptOk with
  | false => exact Or.inr ⟨rfl, ⟨_, rfl⟩, hfresh⟩
  | true =>
  cases hd : env.deriveOk with
  | false => exact Or.inr ⟨rfl, ⟨_, rfl⟩, hfresh⟩
  | true =>
  cases hw : env.wrapOk with
  | false => exact Or.inr ⟨rfl, ⟨_, rfl⟩, hfresh⟩
  | true =>
  cases hu : env.uploadResult (encryptFile task.fileBytes
      (generateFileKey env.dekEntropy) (randomIV env.fileIVEntropy)).1 with
  | error e => exact Or.inr ⟨rfl, ⟨_, rfl⟩, hfresh⟩
  | ok c =>
  cases hs : env.saveOk with
  | false => exact Or.inr ⟨rfl, ⟨_, rfl⟩, hfresh⟩
  | true =>
  simp only [Bool.not_true, Bool.false_eq_true, if_false]
  refine Or.inl ⟨trivial, _, filter_save_fresh _ task.id store rfl hfresh,
    ?_, ?_, ?_, ?_⟩
  · rw [(normalizeOwner_fields _).2.1]
    exact hcid _ c hu
  · rw [(normalizeOwner_fields _).2.2.1]
    exact arrayBufferToBase64_ne_empty (gcmEncrypt_ne_nil _ _ _)
  · rw [(normalizeOwner_fields _).2.2.2.1]
    exact arrayBufferToBase64_ne_empty (randomIV_ne_nil _)
  · rw [(normalizeOwner_fields _).2.2.2.2.1]
    exact arrayBufferToBase64_ne_empty (randomIV_ne_nil _)

/-- A concrete upload task for the C1 witness. -/
def demoTask : UploadTask :=
  { id := "t1", fileName := "a.txt", fileSize := 3, fileType := "text/plain",
    fileBytes := [1, 2, 3] }

/-- Witness for C1: the default environment (everything succeeds) on an empty
store. -/
theorem processTask_atomic_witness :
    (∀ r ∈ ([] : Store), r.id ≠ "t1") ∧
    (∀ (ct : List Nat) (c : String),
        ({} : TaskEnv).uploadResult ct = .ok c → c ≠ "") ∧
    (((processTask "0xAAA" demoTask {} []).1.status = .completed ∧
      ∃ r, (processTask "0xAAA" demoTask {} []).2.filter
              (fun s => s.id == demoTask.id) = [r] ∧
        r.cid ≠ "" ∧ r.encryptedKey ≠ "" ∧ r.keyIV ≠ "" ∧ r.fileIV ≠ "") ∨
    ((processTask "0xAAA" demoTask {} []).1.status = .failed ∧
      (∃ e, (processTask "0xAAA" demoTask {} []).1.error = some e) ∧
      ∀ r ∈ (processTask "0xAAA" demoTask {} []).2, r.id ≠ demoTask.id)) :=
  have h1 : ∀ r ∈ ([] : Store), r.id ≠ "t1" := by decide
  have h2 : ∀ (ct : List Nat) (c : String),
      ({} : TaskEnv).uploadResult ct = .ok c → c ≠ "" := by
    intro ct c h
    injection h with h'
    rw [← h']
    decide
  ⟨h1, h2, processTask_atomic "0xAAA" demoTask {} [] h1 h2⟩

/-- Witness for C4 at concrete identities. -/
theorem deriveKeyFromWallet_caseInsensitive_witness :
    jsToLower "0xAbC123" = jsToLower "0xabc123" ∧
    jsToLower "0xAbC123" ≠ jsToLower "0xDeF999" ∧
    (deriveKeyFromWallet "0xAbC123" = deriveKeyFromWallet "0xabc123" ∧
     deriveKeyFromWallet "0xAbC123" ≠ deriveKeyFromWallet "0xDeF999" ∧
     decryptFileKey
        (encryptFileKey ⟨[1, 2, 3]⟩ (deriveKeyFromWallet "0xAbC123") [9]).1 [9]
        (deriveKeyFromWallet "0xabc123") = .ok ⟨[1, 2, 3]⟩) :=
  ⟨by decide, by decide,
    deriveKeyFromWallet_caseInsensitive "0xAbC123" "0xabc123" "0xDeF999"
      ⟨[1, 2, 3]⟩ [9] (by decide) (by decide)⟩

end CipherVault
